import Mathlib

/-!
Verification development for the library synchronization core of the
lutris repository (file src/lutris/sync.py, class Sync).

The Python source is shallowly embedded: dictionaries for local and
remote game records become structures, the persisted store (the pga
module, which is not part of the sources under verification and is
therefore modelled from the specification's collaborator contracts)
becomes a list of rows with a fresh-id counter, Python sets become
Finset Nat, and the fire-and-forget media refresh becomes an explicit
event log.  Python truthiness on the record fields is modelled as:
a string is falsy exactly when it is empty, a number is falsy exactly
when it is zero, a boolean is its own truthiness.
-/

namespace LutrisSync

/-- A remote catalog entry as consumed by Sync: the code reads exactly the
keys slug, name, year, updated and steamid from each remote game dict. -/
structure RemoteGame where
  slug : String
  name : String
  year : Nat
  updated : Nat
  steamid : Nat
deriving Repr, DecidableEq

/-- A local library row.  The field set follows the specification's
LibraryEntry (slug, name, runner, platform id, installed, config path,
updated, year) together with the store-assigned numeric id.  The steamid
field plays the role of the platform id. -/
structure LocalGame where
  id : Nat
  slug : String
  name : String
  runner : String
  year : Nat
  updated : Nat
  steamid : Nat
  installed : Bool
  configpath : String
deriving Repr, DecidableEq

/-- The record built by sync_missing_games for one missing remote game:
name, slug, year, updated and steamid, exactly the keys the source puts
into the dict appended to the missing list. -/
structure InsertRecord where
  name : String
  slug : String
  year : Nat
  updated : Nat
  steamid : Nat
deriving Repr, DecidableEq

/-- Modelled from the spec: the local persisted store.  The spec describes
it as the exclusive owner of LibraryEntry persistence offering
query-by-field, bulk-insert and upsert; it is modelled as a row list plus
a fresh-id counter, with lookups returning the first matching row. -/
structure Store where
  rows : List LocalGame
  nextId : Nat
deriving Repr, DecidableEq

/-- Replace the first element satisfying p by its image under f. -/
def updateFirst (p : α → Bool) (f : α → α) : List α → List α
  | [] => []
  | x :: xs => if p x then f x :: xs else x :: updateFirst p f xs

/-- Modelled from the spec: find_by_slug of the local store
(pga.get_game_by_field with field slug): first row whose slug matches. -/
def Store.get_game_by_field (st : Store) (slug : String) : Option LocalGame :=
  st.rows.find? (fun r => r.slug == slug)

/-- Modelled from the spec: upsert keyed by slug (pga.add_or_update as
called by sync_game_details): if a row with the slug exists, overwrite its
name, runner, year, updated and steamid fields and return its id,
otherwise insert a fresh row with those fields and store defaults for the
rest. -/
def Store.add_or_update (st : Store) (name runner slug : String)
    (year updated steamid : Nat) : Store × Nat :=
  match st.rows.find? (fun r => r.slug == slug) with
  | some row =>
      (⟨updateFirst (fun r => r.slug == slug)
          (fun r => { r with name := name, runner := runner, year := year,
                             updated := updated, steamid := steamid }) st.rows,
        st.nextId⟩, row.id)
  | none =>
      (⟨st.rows ++ [⟨st.nextId, slug, name, runner, year, updated, steamid, false, ""⟩],
        st.nextId + 1⟩, st.nextId)

/-- The row created for one insert record of a bulk insert. -/
def recRow (id : Nat) (r : InsertRecord) : LocalGame :=
  ⟨id, r.slug, r.name, "", r.year, r.updated, r.steamid, false, ""⟩

/-- Modelled from the spec: insert_many of the local store
(pga.add_games_bulk): insert every record with a fresh id and return the
list of created ids. -/
def Store.add_games_bulk : Store → List InsertRecord → Store × List Nat
  | st, [] => (st, [])
  | st, r :: rs =>
      let st1 : Store := ⟨st.rows ++ [recRow st.nextId r], st.nextId + 1⟩
      let p := st1.add_games_bulk rs
      (p.1, st.nextId :: p.2)

/-- Modelled from the spec: mark_installed of the local store
(steam.mark_as_installed): set the installed flag of the entry with the
context's slug and record the owning runner, returning the affected id;
an absent entry is created from the context. -/
def Store.mark_as_installed (st : Store) (runnerName : String)
    (gi : LocalGame) : Store × Nat :=
  match st.rows.find? (fun r => r.slug == gi.slug) with
  | some row =>
      (⟨updateFirst (fun r => r.slug == gi.slug)
          (fun r => { r with installed := true, runner := runnerName }) st.rows,
        st.nextId⟩, row.id)
  | none =>
      (⟨st.rows ++ [{ gi with id := st.nextId, installed := true, runner := runnerName }],
        st.nextId + 1⟩, st.nextId)

/-- Modelled from the spec: mark_uninstalled of the local store
(steam.mark_as_uninstalled): clear the installed flag of the entry with
the context's slug, returning the affected id; an absent entry is created
from the context. -/
def Store.mark_as_uninstalled (st : Store) (gi : LocalGame) : Store × Nat :=
  match st.rows.find? (fun r => r.slug == gi.slug) with
  | some row =>
      (⟨updateFirst (fun r => r.slug == gi.slug)
          (fun r => { r with installed := false }) st.rows,
        st.nextId⟩, row.id)
  | none =>
      (⟨st.rows ++ [{ gi with id := st.nextId, installed := false }],
        st.nextId + 1⟩, st.nextId)

/-- The keys of a local game dict, as iterated by the backfill loop of
sync_game_details (for key, value in local_game.iteritems()). -/
inductive GameKey where
  | id | slug | name | runner | year | updated | steamid | installed | configpath
deriving Repr, DecidableEq

/-- All keys of the local game dict. -/
def localKeys : List GameKey :=
  [.id, .slug, .name, .runner, .year, .updated, .steamid, .installed, .configpath]

/-- Python truthiness of the value of one key of a local game dict. -/
def localTruthy (lg : LocalGame) : GameKey → Bool
  | .id => lg.id != 0
  | .slug => lg.slug != ""
  | .name => lg.name != ""
  | .runner => lg.runner != ""
  | .year => lg.year != 0
  | .updated => lg.updated != 0
  | .steamid => lg.steamid != 0
  | .installed => lg.installed
  | .configpath => lg.configpath != ""

/-- Presence and truthiness of a key in a remote game dict: none when the
key is not in the dict (the remote dicts carry exactly slug, name, year,
updated and steamid), otherwise the truthiness of the value. -/
def remoteVal (g : RemoteGame) : GameKey → Option Bool
  | .slug => some (g.slug != "")
  | .name => some (g.name != "")
  | .year => some (g.year != 0)
  | .updated => some (g.updated != 0)
  | .steamid => some (g.steamid != 0)
  | _ => none

/-- One iteration of the backfill loop fires for key k exactly when the
local value is falsy, the key is present in the remote dict and the
remote value is truthy. -/
def keyTrigger (lg : LocalGame) (g : RemoteGame) (k : GameKey) : Bool :=
  !localTruthy lg k && (remoteVal g k).getD false

/-- The backfill loop of sync_game_details: starting from
(sync, sync_icons) = (false, true), every firing key sets the pair to
(true, false); other keys leave it unchanged. -/
def decisionLoop (lg : LocalGame) (g : RemoteGame) : Bool × Bool :=
  localKeys.foldl (fun acc k => if keyTrigger lg g k then (true, false) else acc)
    (false, true)

/-- The update decision of sync_game_details for one remote game matched
against its local row: the pair (sync, sync_icons).  The staleness test
comes first; only when it fails does the backfill loop run. -/
def sync_decision (lg : LocalGame) (g : RemoteGame) : Bool × Bool :=
  if lg.updated < g.updated then (true, true) else decisionLoop lg g

/-- Accumulator of the sync_game_details loop: the evolving store, the
set of collected updated ids and the log of download_icon calls
(media kind paired with slug). -/
structure DetailsAcc where
  store : Store
  updated : Finset Nat
  icons : List (String × String)
deriving DecidableEq

/-- One iteration of the sync_game_details loop for one remote game:
look the slug up, decide staleness/backfill, upsert when marked, and on
the staleness path download both icons and collect the id. -/
def syncGameStep (acc : DetailsAcc) (g : RemoteGame) : DetailsAcc :=
  match acc.store.get_game_by_field g.slug with
  | none => acc
  | some lg =>
      let d := sync_decision lg g
      if d.1 then
        let r := acc.store.add_or_update lg.name lg.runner g.slug g.year g.updated g.steamid
        if d.2 then
          ⟨r.1, insert r.2 acc.updated, acc.icons ++ [("banner", g.slug), ("icon", g.slug)]⟩
        else
          ⟨r.1, acc.updated, acc.icons⟩
      else acc

/-- Sync.sync_game_details: early return on an empty remote library,
otherwise the per-game loop over the remote list. -/
def sync_game_details (st : Store) (remote : List RemoteGame) : DetailsAcc :=
  if remote.isEmpty then ⟨st, ∅, []⟩
  else remote.foldl syncGameStep ⟨st, ∅, []⟩

/-- The batch of insert records built by Sync.sync_missing_games: one
record per remote game whose slug is missing locally, in remote order. -/
def missingBatch (remote : List RemoteGame) (notInLocal : Finset String) :
    List InsertRecord :=
  remote.filterMap (fun g =>
    if g.slug ∈ notInLocal then some ⟨g.name, g.slug, g.year, g.updated, g.steamid⟩
    else none)

/-- Sync.sync_missing_games: early return when nothing is missing,
otherwise bulk-insert the batch and return the set of created ids. -/
def sync_missing_games (st : Store) (notInLocal : Finset String)
    (remote : List RemoteGame) : Store × Finset Nat :=
  if notInLocal = ∅ then (st, ∅)
  else
    let p := st.add_games_bulk (missingBatch remote notInLocal)
    (p.1, p.2.toFinset)

/-- The try/except around api.get_library in sync_from_remote: a failed
fetch degrades to an empty remote library. -/
def fetched : Except Unit (List RemoteGame) → List RemoteGame
  | .ok r => r
  | .error _ => []

/-- Result of Sync.sync_from_remote: the added and updated id sets, the
store after the pass, the in-memory library snapshot after the pass
(refreshed from the store only when games were added) and the icon
download log. -/
structure RemoteResult where
  added : Finset Nat
  updated : Finset Nat
  store : Store
  library : List LocalGame
  icons : List (String × String)
deriving DecidableEq

/-- Sync.sync_from_remote: compute local and remote slug sets, insert the
missing games, update details of present ones, and refresh the in-memory
snapshot from the store only when the added set is nonempty. -/
def sync_from_remote (fetch : Except Unit (List RemoteGame))
    (library : List LocalGame) (st : Store) : RemoteResult :=
  let remote := fetched fetch
  let localSlugs : Finset String := (library.map (fun gi => gi.slug)).toFinset
  let remoteSlugs : Finset String := (remote.map (fun g => g.slug)).toFinset
  let notInLocal := remoteSlugs \ localSlugs
  let m := sync_missing_games st notInLocal remote
  let d := sync_game_details m.1 remote
  ⟨m.2, d.updated, d.store, if m.2 = ∅ then library else d.store.rows, d.icons⟩

/-- A platform integration (the steam or winesteam runner): whether it is
installed on the host and, when scanned, which platform ids its manifests
report as installed. -/
structure SteamRunner where
  isInstalled : Bool
  apps : List Nat
deriving Repr, DecidableEq

/-- Sync.get_installed_steamapps: an absent integration contributes no
ids; otherwise the scan yields the installed app ids.  Modelled from the
spec: the manifest-directory walk and AppManifest parsing live outside
the sources under verification; the Installation Scanner contract says a
scan returns the set of installed platform ids. -/
def get_installed_steamapps (r : SteamRunner) : List Nat :=
  if r.isInstalled then r.apps else []

/-- Accumulator of the sync_steam_local loop: the evolving store and the
installed and uninstalled id sets. -/
structure LocalAcc where
  store : Store
  installed : Finset Nat
  uninstalled : Finset Nat
deriving DecidableEq

/-- One iteration of the sync_steam_local loop for one library snapshot
entry: the install branch fires on scanner membership alone (winesteam
additionally requires a config path), the uninstall branch additionally
checks the entry's runner and that runner's presence on the host. -/
def syncSteamStep (steamR wineR : SteamRunner) (sApps wApps : List Nat)
    (acc : LocalAcc) (gi : LocalGame) : LocalAcc :=
  let inSteam := sApps.contains gi.steamid
  let inWine := wApps.contains gi.steamid
  if !gi.installed then
    if inSteam then
      let r := acc.store.mark_as_installed "steam" gi
      ⟨r.1, insert r.2 acc.installed, acc.uninstalled⟩
    else if inWine then
      if gi.configpath == "" then acc
      else
        let r := acc.store.mark_as_installed "winesteam" gi
        ⟨r.1, insert r.2 acc.installed, acc.uninstalled⟩
    else acc
  else if !(inSteam || inWine) then
    if !(gi.runner == "steam" || gi.runner == "winesteam") then acc
    else if gi.runner == "steam" && !steamR.isInstalled then acc
    else if gi.runner == "winesteam" && !wineR.isInstalled then acc
    else
      let r := acc.store.mark_as_uninstalled gi
      ⟨r.1, acc.installed, insert r.2 acc.uninstalled⟩
  else acc

/-- Sync.sync_steam_local: scan both integrations, then run the per-entry
loop over the in-memory library snapshot. -/
def sync_steam_local (steamR wineR : SteamRunner) (library : List LocalGame)
    (st : Store) : LocalAcc :=
  let sApps := get_installed_steamapps steamR
  let wApps := get_installed_steamapps wineR
  library.foldl (syncSteamStep steamR wineR sApps wApps) ⟨st, ∅, ∅⟩

/-- Sync.sync_local just delegates to sync_steam_local. -/
def sync_local (steamR wineR : SteamRunner) (library : List LocalGame)
    (st : Store) : LocalAcc :=
  sync_steam_local steamR wineR library st

/-- The read-only environment of one full pass: the remote fetch outcome
and the two platform integrations. -/
structure Env where
  fetch : Except Unit (List RemoteGame)
  steamR : SteamRunner
  wineR : SteamRunner

/-- The mutable state of a Sync object: the persisted store and the
in-memory library snapshot (self.library). -/
structure SyncState where
  store : Store
  library : List LocalGame
deriving DecidableEq

/-- The four result sets of one full pass. -/
structure SyncResult4 where
  added : Finset Nat
  updated : Finset Nat
  installed : Finset Nat
  uninstalled : Finset Nat
deriving DecidableEq

/-- Sync.__init__: the snapshot is read from the store. -/
def mkSync (st : Store) : SyncState := ⟨st, st.rows⟩

/-- Sync.sync_all: the remote pass (which may refresh the snapshot),
then the local pass over the possibly refreshed snapshot.  The local
pass never refreshes the snapshot. -/
def sync_all (env : Env) (s : SyncState) : SyncResult4 × SyncState :=
  let r := sync_from_remote env.fetch s.library s.store
  let l := sync_steam_local env.steamR env.wineR r.library r.store
  (⟨r.added, r.updated, l.installed, l.uninstalled⟩, ⟨l.store, r.library⟩)

/-- The result of the second of two successive full passes in the same
environment. -/
def runTwice (env : Env) (s : SyncState) : SyncResult4 :=
  (sync_all env (sync_all env s).2).1

/-! ### Basic lemmas about the store and the update decision -/

theorem foldl_trigger (trig : GameKey → Bool) (ks : List GameKey) (acc : Bool × Bool) :
    ks.foldl (fun a k => if trig k then (true, false) else a) acc
      = if ks.any trig then (true, false) else acc := by
  induction ks generalizing acc with
  | nil => simp
  | cons k ks ih =>
      by_cases h : trig k = true
      · simp [h, ih]
      · simp at h
        simp [h, ih]

theorem decisionLoop_eq (lg : LocalGame) (g : RemoteGame) :
    decisionLoop lg g
      = (localKeys.any (keyTrigger lg g), !localKeys.any (keyTrigger lg g)) := by
  rw [decisionLoop, foldl_trigger]
  cases h : localKeys.any (keyTrigger lg g) <;> simp [h]

theorem sync_decision_eq (lg : LocalGame) (g : RemoteGame) :
    sync_decision lg g
      = if lg.updated < g.updated then (true, true)
        else (localKeys.any (keyTrigger lg g), !localKeys.any (keyTrigger lg g)) := by
  rw [sync_decision, decisionLoop_eq]

/-- The backfill trigger, written out field by field. -/
theorem anyTrigger_iff (lg : LocalGame) (g : RemoteGame) :
    localKeys.any (keyTrigger lg g) = true ↔
      ((lg.slug = "" ∧ g.slug ≠ "") ∨ (lg.name = "" ∧ g.name ≠ "") ∨
       (lg.year = 0 ∧ g.year ≠ 0) ∨ (lg.updated = 0 ∧ g.updated ≠ 0) ∨
       (lg.steamid = 0 ∧ g.steamid ≠ 0)) := by
  simp [localKeys, keyTrigger, localTruthy, remoteVal, List.any_cons, and_comm]

theorem find?_updateFirst_self (p : α → Bool) (f : α → α)
    (hf : ∀ x, p x = true → p (f x) = true) (l : List α) :
    List.find? p (updateFirst p f l) = (List.find? p l).map f := by
  induction l with
  | nil => simp [updateFirst]
  | cons x xs ih =>
      by_cases h : p x = true
      · rw [updateFirst, if_pos h, List.find?_cons_of_pos _ (hf x h),
          List.find?_cons_of_pos _ h, Option.map_some']
      · have h' : p x = false := by simp at h; simp [h]
        rw [updateFirst, if_neg (by simp [h']), List.find?_cons_of_neg _ (by simp [h']),
          List.find?_cons_of_neg _ (by simp [h']), ih]

theorem find?_updateFirst_other (p q : α → Bool) (f : α → α)
    (hf : ∀ x, q (f x) = q x) (hpq : ∀ x, p x = true → q x = false) (l : List α) :
    List.find? q (updateFirst p f l) = List.find? q l := by
  induction l with
  | nil => simp [updateFirst]
  | cons x xs ih =>
      by_cases h : p x = true
      · have hq : q x = false := hpq x h
        rw [updateFirst, if_pos h, List.find?_cons_of_neg _ (by simp [hf, hq]),
          List.find?_cons_of_neg _ (by simp [hq])]
      · have h' : p x = false := by simp at h; simp [h]
        rw [updateFirst, if_neg (by simp [h'])]
        by_cases hq : q x = true
        · rw [List.find?_cons_of_pos _ hq, List.find?_cons_of_pos _ hq]
        · have hq' : q x = false := by simp at hq; simp [hq]
          rw [List.find?_cons_of_neg _ (by simp [hq']), List.find?_cons_of_neg _ (by simp [hq']), ih]

theorem find?_append (p : α → Bool) (l1 l2 : List α) :
    List.find? p (l1 ++ l2)
      = (List.find? p l1).orElse (fun _ => List.find? p l2) := by
  induction l1 with
  | nil => simp
  | cons x xs ih =>
      by_cases h : p x = true
      · rw [List.cons_append, List.find?_cons_of_pos _ h, List.find?_cons_of_pos _ h]
        rfl
      · have h' : p x = false := by simp at h; simp [h]
        rw [List.cons_append, List.find?_cons_of_neg _ (by simp [h']),
          List.find?_cons_of_neg _ (by simp [h']), ih]

/-! ### C1: the update decision -/

/-- C1.  For a remote entry matched against an existing local row, the
sync flag is set if and only if the remote entry is strictly newer
(staleness path), or, only when it is not, some field of the local row is
empty while the remote entry carries that field with a non-empty value
(backfill path); with an older remote and no empty-but-backfillable local
field, no update occurs. -/
theorem sync_decision_marks_update_iff (lg : LocalGame) (g : RemoteGame) :
    (sync_decision lg g).1 = true ↔
      (lg.updated < g.updated ∨
        (¬ lg.updated < g.updated ∧
          ((lg.slug = "" ∧ g.slug ≠ "") ∨ (lg.name = "" ∧ g.name ≠ "") ∨
           (lg.year = 0 ∧ g.year ≠ 0) ∨ (lg.updated = 0 ∧ g.updated ≠ 0) ∨
           (lg.steamid = 0 ∧ g.steamid ≠ 0)))) := by
  rw [sync_decision_eq]
  by_cases h : lg.updated < g.updated
  · simp [h]
  · simp only [if_neg h]
    simp only [h, false_or, not_false_iff, true_and]
    exact anyTrigger_iff lg g

/-! ### C3: media refresh happens exactly on the staleness path -/

/-- C3.  One iteration of the details loop appends icon downloads for the
slug exactly when the matched local row exists and the remote entry is
strictly newer (the staleness path); a backfill update or a skipped entry
downloads nothing. -/
theorem icon_refresh_iff_staleness (acc : DetailsAcc) (g : RemoteGame) :
    (syncGameStep acc g).icons
      = acc.icons ++
        (match acc.store.get_game_by_field g.slug with
         | some lg => if lg.updated < g.updated
                      then [("banner", g.slug), ("icon", g.slug)] else []
         | none => []) := by
  rw [syncGameStep]
  cases hfind : acc.store.get_game_by_field g.slug with
  | none => simp
  | some lg =>
      by_cases h : lg.updated < g.updated
      · simp [sync_decision_eq, h]
      · cases ht : localKeys.any (keyTrigger lg g) <;>
          simp [sync_decision_eq, h, ht]

/-! ### C4: a failed remote fetch degrades to an empty pass -/

/-- C4.  When the remote catalog fetch fails, sync_from_remote behaves as
if the remote set were empty: it returns empty added and updated sets,
leaves the store untouched, keeps the snapshot, and downloads nothing. -/
theorem sync_from_remote_fetch_failure (library : List LocalGame) (st : Store) :
    sync_from_remote (Except.error ()) library st
      = ⟨∅, ∅, st, library, []⟩ := by
  simp [sync_from_remote, fetched, sync_missing_games, sync_game_details]

/-! ### C10: the upsert keeps local name and runner, takes the rest remote -/

theorem syncGameStep_upsert_row (acc : DetailsAcc) (g : RemoteGame)
    (lg : LocalGame) (hfind : acc.store.get_game_by_field g.slug = some lg)
    (hsync : (sync_decision lg g).1 = true) :
    (syncGameStep acc g).store.get_game_by_field g.slug
      = some ⟨lg.id, lg.slug, lg.name, lg.runner, g.year, g.updated, g.steamid,
              lg.installed, lg.configpath⟩ := by
  rw [syncGameStep, hfind]
  have hslug : lg.slug = g.slug := by
    have h2 : List.find? (fun r : LocalGame => r.slug == g.slug) acc.store.rows
        = some lg := by simpa [Store.get_game_by_field] using hfind
    simpa using List.find?_some h2
  have hup : (acc.store.add_or_update lg.name lg.runner g.slug g.year g.updated
      g.steamid).1.get_game_by_field g.slug
      = some ⟨lg.id, lg.slug, lg.name, lg.runner, g.year, g.updated, g.steamid,
              lg.installed, lg.configpath⟩ := by
    rw [Store.add_or_update]
    rw [Store.get_game_by_field] at hfind
    rw [hfind]
    simp only [Store.get_game_by_field]
    rw [find?_updateFirst_self (fun r : LocalGame => r.slug == g.slug)
      (fun r : LocalGame =>
        { r with name := lg.name, runner := lg.runner, year := g.year,
                 updated := g.updated, steamid := g.steamid })
      (fun x hx => hx) acc.store.rows, hfind]
    simp [hslug]
  simp only [hsync, if_true]
  cases hicons : (sync_decision lg g).2 <;> simpa [hicons] using hup

/-- C10.  Whenever the details loop issues an upsert for a matched local
row (staleness or backfill path alike), the resulting row keeps the local
name and runner unchanged while year, updated and steamid are taken from
the remote entry; id, installed flag and config path are untouched. -/
theorem upsert_keeps_local_name_runner (acc : DetailsAcc) (g : RemoteGame)
    (lg : LocalGame) (hfind : acc.store.get_game_by_field g.slug = some lg)
    (hsync : (sync_decision lg g).1 = true) :
    (syncGameStep acc g).store.get_game_by_field g.slug
      = some ⟨lg.id, lg.slug, lg.name, lg.runner, g.year, g.updated, g.steamid,
              lg.installed, lg.configpath⟩ :=
  syncGameStep_upsert_row acc g lg hfind hsync

/-- Witness for C10 at a concrete staleness-path input. -/
theorem upsert_keeps_local_name_runner_witness :
    (⟨⟨[⟨0, "doom", "Doom", "linux", 0, 100, 7, true, "/c"⟩], 1⟩, ∅, []⟩ :
        DetailsAcc).store.get_game_by_field "doom"
      = some ⟨0, "doom", "Doom", "linux", 0, 100, 7, true, "/c"⟩ ∧
    (sync_decision ⟨0, "doom", "Doom", "linux", 0, 100, 7, true, "/c"⟩
        ⟨"doom", "Doom II", 1994, 200, 8⟩).1 = true ∧
    (syncGameStep ⟨⟨[⟨0, "doom", "Doom", "linux", 0, 100, 7, true, "/c"⟩], 1⟩, ∅, []⟩
        ⟨"doom", "Doom II", 1994, 200, 8⟩).store.get_game_by_field "doom"
      = some ⟨0, "doom", "Doom", "linux", 1994, 200, 8, true, "/c"⟩ :=
  ⟨by decide, by decide,
    upsert_keeps_local_name_runner
      ⟨⟨[⟨0, "doom", "Doom", "linux", 0, 100, 7, true, "/c"⟩], 1⟩, ∅, []⟩
      ⟨"doom", "Doom II", 1994, 200, 8⟩
      ⟨0, "doom", "Doom", "linux", 0, 100, 7, true, "/c"⟩
      (by decide) (by decide)⟩

/-! ### C2: backfill updates are not collected into the updated set -/

/-- C2 (code bug evidence).  At a backfill-path input (local year empty,
remote year 1993, equal timestamps) the code issues the upsert, as
witnessed by the changed store row, but the returned updated set is
empty: the collection of the id happens only inside the sync_icons
branch, so backfill updates are never reported. -/
theorem backfill_update_not_collected :
    (sync_game_details ⟨[⟨0, "doom", "Doom", "linux", 0, 100, 7, true, "/c"⟩], 1⟩
        [⟨"doom", "Doom", 1993, 100, 7⟩]).updated = ∅ ∧
    (sync_game_details ⟨[⟨0, "doom", "Doom", "linux", 0, 100, 7, true, "/c"⟩], 1⟩
        [⟨"doom", "Doom", 1993, 100, 7⟩]).store
      = ⟨[⟨0, "doom", "Doom", "linux", 1993, 100, 7, true, "/c"⟩], 1⟩ := by
  constructor <;> decide

/-! ### Characterization of one step of the local installation pass -/

theorem syncSteamStep_uninstalled (sR wR : SteamRunner) (sApps wApps : List Nat)
    (acc : LocalAcc) (gi : LocalGame) :
    (syncSteamStep sR wR sApps wApps acc gi).uninstalled
      = (if gi.installed && !sApps.contains gi.steamid && !wApps.contains gi.steamid
            && ((gi.runner == "steam" && sR.isInstalled)
                || (gi.runner == "winesteam" && wR.isInstalled))
         then insert (acc.store.mark_as_uninstalled gi).2 acc.uninstalled
         else acc.uninstalled) := by
  by_cases hr1 : gi.runner = "steam" <;> by_cases hr2 : gi.runner = "winesteam" <;>
    by_cases hcp : gi.configpath = "" <;>
    by_cases hS : gi.steamid ∈ sApps <;> by_cases hW : gi.steamid ∈ wApps <;>
    cases hI : gi.installed <;>
    cases hsi : sR.isInstalled <;> cases hwi : wR.isInstalled <;>
    first
    | exact absurd (hr1.symm.trans hr2) (by decide)
    | simp [syncSteamStep, hI, hS, hW, hr1, hr2, hsi, hwi, hcp]

theorem syncSteamStep_installed (sR wR : SteamRunner) (sApps wApps : List Nat)
    (acc : LocalAcc) (gi : LocalGame) :
    (syncSteamStep sR wR sApps wApps acc gi).installed
      = (if gi.installed then acc.installed
         else if sApps.contains gi.steamid
         then insert (acc.store.mark_as_installed "steam" gi).2 acc.installed
         else if wApps.contains gi.steamid && gi.configpath != ""
         then insert (acc.store.mark_as_installed "winesteam" gi).2 acc.installed
         else acc.installed) := by
  by_cases hr1 : gi.runner = "steam" <;> by_cases hr2 : gi.runner = "winesteam" <;>
    by_cases hcp : gi.configpath = "" <;>
    by_cases hS : gi.steamid ∈ sApps <;> by_cases hW : gi.steamid ∈ wApps <;>
    cases hI : gi.installed <;>
    cases hsi : sR.isInstalled <;> cases hwi : wR.isInstalled <;>
    first
    | exact absurd (hr1.symm.trans hr2) (by decide)
    | simp [syncSteamStep, hI, hS, hW, hr1, hr2, hsi, hwi, hcp]

theorem mark_as_uninstalled_snd_configpath (st : Store) (gi : LocalGame) (cp : String) :
    (st.mark_as_uninstalled { gi with configpath := cp }).2
      = (st.mark_as_uninstalled gi).2 := by
  cases h : st.rows.find? (fun r => r.slug == gi.slug) <;>
    simp [Store.mark_as_uninstalled, h]

/-! ### C6: the uninstall transition characterized -/

/-- C6.  An entry takes the uninstall transition exactly when it is
recorded installed, its platform id is reported by neither configured
scanner, its runner is the primary (steam) or secondary (winesteam)
integration, and that integration is present on the host; a scanner of an
absent integration reports nothing, so absence of the integration alone
never yields an uninstall.  In addition the uninstall decision is
independent of the entry's config path, which only guards the install
transition of the secondary runner. -/
theorem uninstall_transition_iff (sR wR : SteamRunner) (acc : LocalAcc) (gi : LocalGame) :
    ((syncSteamStep sR wR (get_installed_steamapps sR) (get_installed_steamapps wR)
        acc gi).uninstalled
      = (if gi.installed && !(get_installed_steamapps sR).contains gi.steamid
            && !(get_installed_steamapps wR).contains gi.steamid
            && ((gi.runner == "steam" && sR.isInstalled)
                || (gi.runner == "winesteam" && wR.isInstalled))
         then insert (acc.store.mark_as_uninstalled gi).2 acc.uninstalled
         else acc.uninstalled)) ∧
    (∀ cp, (syncSteamStep sR wR (get_installed_steamapps sR) (get_installed_steamapps wR)
        acc { gi with configpath := cp }).uninstalled
      = (syncSteamStep sR wR (get_installed_steamapps sR) (get_installed_steamapps wR)
        acc gi).uninstalled) := by
  refine ⟨syncSteamStep_uninstalled sR wR _ _ acc gi, fun cp => ?_⟩
  rw [syncSteamStep_uninstalled, syncSteamStep_uninstalled]
  simp [mark_as_uninstalled_snd_configpath]

/-! ### C5: install transitions ignore the runner field -/

/-- Local entry owned by a runner outside the platform-integration set. -/
def c5entry : LocalGame := ⟨0, "gta", "GTA", "linux", 0, 0, 42, false, ""⟩

/-- Host with the steam integration present and app 42 installed. -/
def c5steam : SteamRunner := ⟨true, [42]⟩

/-- Host without the winesteam integration. -/
def c5wine : SteamRunner := ⟨false, []⟩

/-- Store holding only the foreign-runner entry. -/
def c5store : Store := ⟨[c5entry], 1⟩

/-- C5 counterexample.  A local entry whose runner is linux, hence outside
the supported platform-integration set, still receives an install
transition and a persistence request as soon as a scanner reports its
platform id: the install branch never inspects the runner field. -/
theorem install_fires_for_foreign_runner :
    c5entry.runner ∉ (["steam", "winesteam"] : List String) ∧
    (sync_steam_local c5steam c5wine [c5entry] c5store).installed = {0} ∧
    (sync_steam_local c5steam c5wine [c5entry] c5store).store ≠ c5store := by
  refine ⟨by decide, by decide, by decide⟩

/-- C5 amended.  Only the uninstall transition is restricted to entries
whose runner is steam or winesteam: for any other runner value no
uninstall is emitted, but the install transition (and its persistence
request) still fires whenever a scanner reports the entry's platform id,
with the winesteam path additionally requiring a config path. -/
theorem transitions_runner_scope (sR wR : SteamRunner) (sApps wApps : List Nat)
    (acc : LocalAcc) (gi : LocalGame)
    (h1 : gi.runner ≠ "steam") (h2 : gi.runner ≠ "winesteam") :
    (syncSteamStep sR wR sApps wApps acc gi).uninstalled = acc.uninstalled ∧
    (syncSteamStep sR wR sApps wApps acc gi).installed
      = (if gi.installed then acc.installed
         else if sApps.contains gi.steamid
         then insert (acc.store.mark_as_installed "steam" gi).2 acc.installed
         else if wApps.contains gi.steamid && gi.configpath != ""
         then insert (acc.store.mark_as_installed "winesteam" gi).2 acc.installed
         else acc.installed) := by
  refine ⟨?_, syncSteamStep_installed sR wR sApps wApps acc gi⟩
  rw [syncSteamStep_uninstalled]
  simp [h1, h2]

/-- Witness for C5 amended at a concrete foreign-runner entry. -/
theorem transitions_runner_scope_witness :
    c5entry.runner ≠ "steam" ∧ c5entry.runner ≠ "winesteam" ∧
    ((syncSteamStep c5steam c5wine [42] [] ⟨c5store, ∅, ∅⟩ c5entry).uninstalled
        = (∅ : Finset Nat) ∧
     (syncSteamStep c5steam c5wine [42] [] ⟨c5store, ∅, ∅⟩ c5entry).installed
        = (if c5entry.installed then (∅ : Finset Nat)
           else if ([42] : List Nat).contains c5entry.steamid
           then insert ((c5store.mark_as_installed "steam" c5entry)).2 (∅ : Finset Nat)
           else if ([] : List Nat).contains c5entry.steamid && c5entry.configpath != ""
           then insert ((c5store.mark_as_installed "winesteam" c5entry)).2 (∅ : Finset Nat)
           else (∅ : Finset Nat))) :=
  ⟨by decide, by decide,
    transitions_runner_scope c5steam c5wine [42] [] ⟨c5store, ∅, ∅⟩ c5entry
      (by decide) (by decide)⟩

/-! ### Store lemmas -/

/-- The slug-lookup predicate used throughout the store. -/
def slugPred (s : String) : LocalGame → Bool := fun r => r.slug == s

theorem get_game_by_field_eq (st : Store) (s : String) :
    st.get_game_by_field s = st.rows.find? (slugPred s) := rfl

theorem get_game_by_field_isSome_iff (st : Store) (s : String) :
    (st.get_game_by_field s).isSome = true ↔ s ∈ st.rows.map (fun r => r.slug) := by
  rw [get_game_by_field_eq, List.find?_isSome]
  constructor
  · rintro ⟨x, hx, hpx⟩
    exact List.mem_map.mpr ⟨x, hx, by simpa [slugPred] using hpx⟩
  · intro hm
    rcases List.mem_map.mp hm with ⟨x, hx, hxs⟩
    exact ⟨x, hx, by simp [slugPred, hxs]⟩

theorem get_game_by_field_eq_none (st : Store) (s : String)
    (h : s ∉ st.rows.map (fun r => r.slug)) : st.get_game_by_field s = none := by
  have h2 : ¬ ((st.get_game_by_field s).isSome = true) := by
    rw [get_game_by_field_isSome_iff]; exact h
  cases hf : st.get_game_by_field s with
  | none => rfl
  | some lg => rw [hf] at h2; simp at h2

theorem get_game_by_field_slug (st : Store) (s : String) (lg : LocalGame)
    (h : st.get_game_by_field s = some lg) : lg.slug = s := by
  have h2 : st.rows.find? (slugPred s) = some lg := by
    rw [← get_game_by_field_eq, h]
  simpa [slugPred] using List.find?_some h2

theorem map_slug_updateFirst (p : LocalGame → Bool) (f : LocalGame → LocalGame)
    (hf : ∀ x, (f x).slug = x.slug) (l : List LocalGame) :
    (updateFirst p f l).map (fun r => r.slug) = l.map (fun r => r.slug) := by
  induction l with
  | nil => rfl
  | cons x xs ih =>
      by_cases h : p x = true
      · simp [updateFirst, h, hf]
      · have h' : p x = false := by simp at h; simp [h]
        simp [updateFirst, h', ih]

/-! ### Characterization of one step of the details pass -/

/-- The row produced by the upsert of the details loop for a matched
local row: local name and runner, remote year, updated and steamid. -/
def mergeRow (lg : LocalGame) (g : RemoteGame) : LocalGame :=
  ⟨lg.id, lg.slug, lg.name, lg.runner, g.year, g.updated, g.steamid,
   lg.installed, lg.configpath⟩

theorem syncGameStep_of_none (acc : DetailsAcc) (g : RemoteGame)
    (hfind : acc.store.get_game_by_field g.slug = none) :
    syncGameStep acc g = acc := by
  simp [syncGameStep, hfind]

theorem syncGameStep_of_no_sync (acc : DetailsAcc) (g : RemoteGame) (lg : LocalGame)
    (hfind : acc.store.get_game_by_field g.slug = some lg)
    (hd : (sync_decision lg g).1 = false) :
    syncGameStep acc g = acc := by
  simp [syncGameStep, hfind, hd]

theorem syncGameStep_store_of_sync (acc : DetailsAcc) (g : RemoteGame) (lg : LocalGame)
    (hfind : acc.store.get_game_by_field g.slug = some lg)
    (hd : (sync_decision lg g).1 = true) :
    (syncGameStep acc g).store
      = (acc.store.add_or_update lg.name lg.runner g.slug g.year g.updated g.steamid).1 := by
  cases h2 : (sync_decision lg g).2 <;> simp [syncGameStep, hfind, hd, h2]

theorem add_or_update_found_store (st : Store) (g : RemoteGame) (lg : LocalGame)
    (nm rn : String)
    (hfind : st.get_game_by_field g.slug = some lg) :
    (st.add_or_update nm rn g.slug g.year g.updated g.steamid).1
      = ⟨updateFirst (fun r => r.slug == g.slug)
           (fun r => { r with name := nm, runner := rn, year := g.year,
                              updated := g.updated, steamid := g.steamid }) st.rows,
         st.nextId⟩ := by
  rw [get_game_by_field_eq] at hfind
  have hfind2 : st.rows.find? (fun r => r.slug == g.slug) = some lg := hfind
  rw [Store.add_or_update, hfind2]

theorem add_or_update_found_id (st : Store) (g : RemoteGame) (lg : LocalGame)
    (nm rn : String)
    (hfind : st.get_game_by_field g.slug = some lg) :
    (st.add_or_update nm rn g.slug g.year g.updated g.steamid).2 = lg.id := by
  rw [get_game_by_field_eq] at hfind
  have hfind2 : st.rows.find? (fun r => r.slug == g.slug) = some lg := hfind
  rw [Store.add_or_update, hfind2]

theorem syncGameStep_find_self (acc : DetailsAcc) (g : RemoteGame) :
    (syncGameStep acc g).store.get_game_by_field g.slug
      = (acc.store.get_game_by_field g.slug).map
          (fun lg => if (sync_decision lg g).1 then mergeRow lg g else lg) := by
  cases hfind : acc.store.get_game_by_field g.slug with
  | none => rw [syncGameStep_of_none acc g hfind, hfind]; rfl
  | some lg =>
      rw [Option.map_some']
      by_cases hd : (sync_decision lg g).1 = true
      · rw [if_pos hd]
        exact syncGameStep_upsert_row acc g lg hfind hd
      · have hd2 : (sync_decision lg g).1 = false := by
          cases h : (sync_decision lg g).1
          · rfl
          · exact absurd h hd
        rw [syncGameStep_of_no_sync acc g lg hfind hd2, hfind, hd2]
        simp

theorem syncGameStep_find_other (acc : DetailsAcc) (g : RemoteGame) (s : String)
    (hs : s ≠ g.slug) :
    (syncGameStep acc g).store.get_game_by_field s
      = acc.store.get_game_by_field s := by
  cases hfind : acc.store.get_game_by_field g.slug with
  | none => rw [syncGameStep_of_none acc g hfind]
  | some lg =>
      by_cases hd : (sync_decision lg g).1 = true
      · rw [syncGameStep_store_of_sync acc g lg hfind hd,
          add_or_update_found_store acc.store g lg lg.name lg.runner hfind,
          get_game_by_field_eq, get_game_by_field_eq]
        exact find?_updateFirst_other (fun r : LocalGame => r.slug == g.slug)
          (slugPred s)
          (fun r : LocalGame =>
            { r with name := lg.name, runner := lg.runner, year := g.year,
                     updated := g.updated, steamid := g.steamid })
          (fun x => rfl)
          (fun x hx => by
            have hxslug : x.slug = g.slug := by simpa using hx
            simp [slugPred, hxslug, Ne.symm hs]) acc.store.rows
      · have hd2 : (sync_decision lg g).1 = false := by
          cases h : (sync_decision lg g).1
          · rfl
          · exact absurd h hd
        rw [syncGameStep_of_no_sync acc g lg hfind hd2]

theorem syncGameStep_updated (acc : DetailsAcc) (g : RemoteGame) :
    (syncGameStep acc g).updated
      = (match acc.store.get_game_by_field g.slug with
         | some lg => if lg.updated < g.updated then insert lg.id acc.updated
                      else acc.updated
         | none => acc.updated) := by
  cases hfind : acc.store.get_game_by_field g.slug with
  | none => rw [syncGameStep_of_none acc g hfind]
  | some lg =>
      by_cases h : lg.updated < g.updated
      · have hd : (sync_decision lg g).1 = true := by
          rw [sync_decision_eq, if_pos h]
        have hid := add_or_update_found_id acc.store g lg lg.name lg.runner hfind
        have hdi : (sync_decision lg g).2 = true := by
          rw [sync_decision_eq, if_pos h]
        simp [syncGameStep, hfind, hd, hdi, hid, h]
      · cases ht : localKeys.any (keyTrigger lg g) with
        | false =>
            have hd2 : (sync_decision lg g).1 = false := by
              rw [sync_decision_eq, if_neg h, ht]
            rw [syncGameStep_of_no_sync acc g lg hfind hd2]
            simp [h]
        | true =>
            have hd : (sync_decision lg g).1 = true := by
              rw [sync_decision_eq, if_neg h, ht]
            have hdi : (sync_decision lg g).2 = false := by
              rw [sync_decision_eq, if_neg h, ht]
              rfl
            simp [syncGameStep, hfind, hd, hdi, h]

theorem syncGameStep_map_slug (acc : DetailsAcc) (g : RemoteGame) :
    (syncGameStep acc g).store.rows.map (fun r => r.slug)
      = acc.store.rows.map (fun r => r.slug) := by
  cases hfind : acc.store.get_game_by_field g.slug with
  | none => rw [syncGameStep_of_none acc g hfind]
  | some lg =>
      by_cases hd : (sync_decision lg g).1 = true
      · rw [syncGameStep_store_of_sync acc g lg hfind hd,
          add_or_update_found_store acc.store g lg lg.name lg.runner hfind]
        exact map_slug_updateFirst (fun r : LocalGame => r.slug == g.slug)
          (fun r : LocalGame =>
            { r with name := lg.name, runner := lg.runner, year := g.year,
                     updated := g.updated, steamid := g.steamid })
          (fun x => rfl) acc.store.rows
      · have hd2 : (sync_decision lg g).1 = false := by
          cases h : (sync_decision lg g).1
          · rfl
          · exact absurd h hd
        rw [syncGameStep_of_no_sync acc g lg hfind hd2]

theorem syncGameStep_nextId (acc : DetailsAcc) (g : RemoteGame) :
    (syncGameStep acc g).store.nextId = acc.store.nextId := by
  cases hfind : acc.store.get_game_by_field g.slug with
  | none => rw [syncGameStep_of_none acc g hfind]
  | some lg =>
      by_cases hd : (sync_decision lg g).1 = true
      · rw [syncGameStep_store_of_sync acc g lg hfind hd,
          add_or_update_found_store acc.store g lg lg.name lg.runner hfind]
      · have hd2 : (sync_decision lg g).1 = false := by
          cases h : (sync_decision lg g).1
          · rfl
          · exact absurd h hd
        rw [syncGameStep_of_no_sync acc g lg hfind hd2]

/-! ### Fold lemmas for the details pass -/

theorem foldl_syncGameStep_find_other (gs : List RemoteGame) (s : String) :
    ∀ acc : DetailsAcc, s ∉ gs.map (fun g => g.slug) →
      (gs.foldl syncGameStep acc).store.get_game_by_field s
        = acc.store.get_game_by_field s := by
  induction gs with
  | nil => intro acc _; rfl
  | cons g gs ih =>
      intro acc hs
      simp only [List.map_cons, List.mem_cons, not_or] at hs
      rw [List.foldl_cons, ih _ hs.2, syncGameStep_find_other _ _ _ hs.1]

theorem foldl_syncGameStep_map_slug (gs : List RemoteGame) :
    ∀ acc : DetailsAcc,
      (gs.foldl syncGameStep acc).store.rows.map (fun r => r.slug)
        = acc.store.rows.map (fun r => r.slug) := by
  induction gs with
  | nil => intro acc; rfl
  | cons g gs ih =>
      intro acc
      rw [List.foldl_cons, ih _, syncGameStep_map_slug]

theorem foldl_syncGameStep_nextId (gs : List RemoteGame) :
    ∀ acc : DetailsAcc,
      (gs.foldl syncGameStep acc).store.nextId = acc.store.nextId := by
  induction gs with
  | nil => intro acc; rfl
  | cons g gs ih =>
      intro acc
      rw [List.foldl_cons, ih _, syncGameStep_nextId]

/-- The state of the store after a details pass over a remote list: every
listed remote entry is at most as new as the row its slug finds. -/
def updInv (st : Store) (gs : List RemoteGame) : Prop :=
  ∀ g ∈ gs, ∀ lg, st.get_game_by_field g.slug = some lg → g.updated ≤ lg.updated

theorem sync_decision_false_not_lt (lg : LocalGame) (g : RemoteGame)
    (hd : (sync_decision lg g).1 = false) : ¬ lg.updated < g.updated := by
  intro hlt
  rw [sync_decision_eq, if_pos hlt] at hd
  simp at hd

theorem updInv_after_fold (gs : List RemoteGame) :
    ∀ acc : DetailsAcc, (gs.map (fun g => g.slug)).Nodup →
      updInv (gs.foldl syncGameStep acc).store gs := by
  induction gs with
  | nil => intro acc _ g hg; cases hg
  | cons g gs ih =>
      intro acc hnd
      simp only [List.map_cons, List.nodup_cons] at hnd
      intro g2 hg2 lg hlg
      rw [List.foldl_cons] at hlg
      rcases List.mem_cons.mp hg2 with heq | hmem
      · subst heq
        rw [foldl_syncGameStep_find_other gs _ _ hnd.1,
          syncGameStep_find_self] at hlg
        cases hf : acc.store.get_game_by_field g2.slug with
        | none => rw [hf] at hlg; exact absurd hlg (by simp)
        | some lg0 =>
            rw [hf, Option.map_some', Option.some.injEq] at hlg
            by_cases hd : (sync_decision lg0 g2).1 = true
            · rw [if_pos hd] at hlg
              rw [← hlg]
              exact le_refl g2.updated
            · have hd2 : (sync_decision lg0 g2).1 = false := by
                cases h : (sync_decision lg0 g2).1
                · rfl
                · exact absurd h hd
              rw [if_neg (by rw [hd2]; exact Bool.false_ne_true)] at hlg
              have := sync_decision_false_not_lt lg0 g2 hd2
              rw [← hlg]
              omega
      · exact ih (syncGameStep acc g) hnd.2 g2 hmem lg hlg

theorem foldl_syncGameStep_updated_of_updInv (gs : List RemoteGame) :
    ∀ acc : DetailsAcc, updInv acc.store gs → (gs.map (fun g => g.slug)).Nodup →
      (gs.foldl syncGameStep acc).updated = acc.updated := by
  induction gs with
  | nil => intro acc _ _; rfl
  | cons g gs ih =>
      intro acc hinv hnd
      simp only [List.map_cons, List.nodup_cons] at hnd
      rw [List.foldl_cons]
      have hstep : (syncGameStep acc g).updated = acc.updated := by
        rw [syncGameStep_updated]
        cases hf : acc.store.get_game_by_field g.slug with
        | none => rfl
        | some lg =>
            have hle := hinv g (List.mem_cons_self g gs) lg hf
            show (if lg.updated < g.updated then insert lg.id acc.updated
                  else acc.updated) = acc.updated
            rw [if_neg (by omega)]
      have hinv2 : updInv (syncGameStep acc g).store gs := by
        intro g2 hg2 lg hlg
        have hneq : g2.slug ≠ g.slug := by
          intro heq
          exact hnd.1 (heq ▸ List.mem_map_of_mem (fun x => x.slug) hg2)
        rw [syncGameStep_find_other acc g g2.slug hneq] at hlg
        exact hinv g2 (List.mem_cons_of_mem g hg2) lg hlg
      rw [ih (syncGameStep acc g) hinv2 hnd.2, hstep]

theorem sync_game_details_eq_fold (st : Store) (gs : List RemoteGame) :
    sync_game_details st gs = gs.foldl syncGameStep ⟨st, ∅, []⟩ := by
  cases gs with
  | nil => rfl
  | cons g gs => rfl

/-! ### Bulk insert and missing batch lemmas -/

/-- The rows a bulk insert appends, with ids counted from n. -/
def bulkRows : Nat → List InsertRecord → List LocalGame
  | _, [] => []
  | n, r :: rs => recRow n r :: bulkRows (n + 1) rs

/-- The ids a bulk insert returns: k consecutive ids from n. -/
def idRange : Nat → Nat → List Nat
  | _, 0 => []
  | n, k + 1 => n :: idRange (n + 1) k

theorem mem_idRange (k : Nat) : ∀ n i, i ∈ idRange n k ↔ n ≤ i ∧ i < n + k := by
  induction k with
  | zero => intro n i; simp [idRange]
  | succ k ih =>
      intro n i
      simp only [idRange, List.mem_cons, ih (n + 1) i]
      omega

theorem add_games_bulk_rows (rs : List InsertRecord) :
    ∀ st : Store, (st.add_games_bulk rs).1.rows = st.rows ++ bulkRows st.nextId rs := by
  induction rs with
  | nil => intro st; simp [Store.add_games_bulk, bulkRows]
  | cons r rs ih =>
      intro st
      rw [Store.add_games_bulk]
      show (Store.add_games_bulk ⟨st.rows ++ [recRow st.nextId r], st.nextId + 1⟩ rs).1.rows
        = st.rows ++ bulkRows st.nextId (r :: rs)
      rw [ih ⟨st.rows ++ [recRow st.nextId r], st.nextId + 1⟩]
      simp [bulkRows]

theorem add_games_bulk_nextId (rs : List InsertRecord) :
    ∀ st : Store, (st.add_games_bulk rs).1.nextId = st.nextId + rs.length := by
  induction rs with
  | nil => intro st; simp [Store.add_games_bulk]
  | cons r rs ih =>
      intro st
      rw [Store.add_games_bulk]
      show (Store.add_games_bulk ⟨st.rows ++ [recRow st.nextId r], st.nextId + 1⟩ rs).1.nextId
        = st.nextId + (r :: rs).length
      rw [ih ⟨st.rows ++ [recRow st.nextId r], st.nextId + 1⟩]
      simp
      omega

theorem add_games_bulk_ids (rs : List InsertRecord) :
    ∀ st : Store, (st.add_games_bulk rs).2 = idRange st.nextId rs.length := by
  induction rs with
  | nil => intro st; rfl
  | cons r rs ih =>
      intro st
      rw [Store.add_games_bulk]
      show st.nextId :: (Store.add_games_bulk ⟨st.rows ++ [recRow st.nextId r], st.nextId + 1⟩ rs).2
        = idRange st.nextId (r :: rs).length
      rw [ih ⟨st.rows ++ [recRow st.nextId r], st.nextId + 1⟩]
      rfl

theorem bulkRows_map_slug (rs : List InsertRecord) :
    ∀ n, (bulkRows n rs).map (fun r => r.slug) = rs.map (fun r => r.slug) := by
  induction rs with
  | nil => intro n; rfl
  | cons r rs ih => intro n; simp [bulkRows, recRow, ih]

theorem bulkRows_id_ge (rs : List InsertRecord) :
    ∀ n, ∀ r ∈ bulkRows n rs, n ≤ r.id := by
  induction rs with
  | nil => intro n r hr; cases hr
  | cons x rs ih =>
      intro n r hr
      rcases List.mem_cons.mp hr with heq | hmem
      · subst heq; exact le_refl n
      · have := ih (n + 1) r hmem
        omega

theorem bulkRows_find_updated (rs : List InsertRecord) (s : String) :
    ∀ n, ((bulkRows n rs).find? (slugPred s)).map (fun r => r.updated)
      = (rs.find? (fun r => r.slug == s)).map (fun r => r.updated) := by
  induction rs with
  | nil => intro n; rfl
  | cons r rs ih =>
      intro n
      by_cases h : r.slug == s
      · have hR : List.find? (fun x : InsertRecord => x.slug == s) (r :: rs) = some r :=
          List.find?_cons_of_pos _ h
        rw [bulkRows, List.find?_cons_of_pos _ (show slugPred s (recRow n r) from h), hR]
        rfl
      · have h2 : (r.slug == s) = false := by
          cases hb : (r.slug == s)
          · rfl
          · exact absurd hb h
        have hR : List.find? (fun x : InsertRecord => x.slug == s) (r :: rs)
            = List.find? (fun x : InsertRecord => x.slug == s) rs :=
          List.find?_cons_of_neg _ (by simp [h2])
        rw [bulkRows, List.find?_cons_of_neg _ (show ¬ slugPred s (recRow n r) by
            simp only [slugPred, recRow]; simp [h2]),
          hR, ih (n + 1)]

theorem missingBatch_map_slug_sublist (nl : Finset String) (gs : List RemoteGame) :
    ((missingBatch gs nl).map (fun r => r.slug)).Sublist
      (gs.map (fun g => g.slug)) := by
  induction gs with
  | nil => simp [missingBatch]
  | cons g gs ih =>
      by_cases h : g.slug ∈ nl
      · rw [missingBatch, List.filterMap_cons, if_pos h]
        exact List.Sublist.cons₂ g.slug ih
      · rw [missingBatch, List.filterMap_cons, if_neg h]
        exact List.Sublist.cons g.slug ih

theorem missingBatch_find_of_mem (nl : Finset String) (s : String) (hs : s ∈ nl)
    (gs : List RemoteGame) :
    (missingBatch gs nl).find? (fun r => r.slug == s)
      = (gs.find? (fun g => g.slug == s)).map
          (fun g => (⟨g.name, g.slug, g.year, g.updated, g.steamid⟩ : InsertRecord)) := by
  induction gs with
  | nil => rfl
  | cons g gs ih =>
      by_cases hmem : g.slug ∈ nl
      · have hbatch : missingBatch (g :: gs) nl
            = (⟨g.name, g.slug, g.year, g.updated, g.steamid⟩ : InsertRecord)
              :: missingBatch gs nl := by
          simp [missingBatch, List.filterMap_cons, hmem]
        rw [hbatch]
        by_cases h : g.slug == s
        · have hL : List.find? (fun r : InsertRecord => r.slug == s)
              ((⟨g.name, g.slug, g.year, g.updated, g.steamid⟩ : InsertRecord)
                :: missingBatch gs nl)
              = some ⟨g.name, g.slug, g.year, g.updated, g.steamid⟩ :=
            List.find?_cons_of_pos _ h
          have hR : List.find? (fun x : RemoteGame => x.slug == s) (g :: gs) = some g :=
            List.find?_cons_of_pos _ h
          rw [hL, hR]
          rfl
        · have h2 : (g.slug == s) = false := by
            cases hb : (g.slug == s)
            · rfl
            · exact absurd hb h
          have hL : List.find? (fun r : InsertRecord => r.slug == s)
              ((⟨g.name, g.slug, g.year, g.updated, g.steamid⟩ : InsertRecord)
                :: missingBatch gs nl)
              = List.find? (fun r : InsertRecord => r.slug == s) (missingBatch gs nl) :=
            List.find?_cons_of_neg _ (by simp [h2])
          have hR : List.find? (fun x : RemoteGame => x.slug == s) (g :: gs)
              = List.find? (fun x : RemoteGame => x.slug == s) gs :=
            List.find?_cons_of_neg _ (by simp [h2])
          rw [hL, hR]
          exact ih
      · have h2 : (g.slug == s) = false := by
          cases hb : (g.slug == s)
          · rfl
          · have hgs : g.slug = s := by simpa using hb
            exact absurd (hgs ▸ hs) hmem
        have hbatch : missingBatch (g :: gs) nl = missingBatch gs nl := by
          simp [missingBatch, List.filterMap_cons, hmem]
        have hR : List.find? (fun x : RemoteGame => x.slug == s) (g :: gs)
            = List.find? (fun x : RemoteGame => x.slug == s) gs :=
          List.find?_cons_of_neg _ (by simp [h2])
        rw [hbatch, hR]
        exact ih

theorem missingBatch_find_of_not_mem (nl : Finset String) (s : String) (hs : s ∉ nl)
    (gs : List RemoteGame) :
    (missingBatch gs nl).find? (fun r => r.slug == s) = none := by
  induction gs with
  | nil => rfl
  | cons g gs ih =>
      by_cases hmem : g.slug ∈ nl
      · have h2 : (g.slug == s) = false := by
          cases hb : (g.slug == s)
          · rfl
          · have hgs : g.slug = s := by simpa using hb
            exact absurd (hgs ▸ hmem) hs
        have hbatch : missingBatch (g :: gs) nl
            = (⟨g.name, g.slug, g.year, g.updated, g.steamid⟩ : InsertRecord)
              :: missingBatch gs nl := by
          simp [missingBatch, List.filterMap_cons, hmem]
        have hL : List.find? (fun r : InsertRecord => r.slug == s)
            ((⟨g.name, g.slug, g.year, g.updated, g.steamid⟩ : InsertRecord)
              :: missingBatch gs nl)
            = List.find? (fun r : InsertRecord => r.slug == s) (missingBatch gs nl) :=
          List.find?_cons_of_neg _ (by simp [h2])
        rw [hbatch, hL]
        exact ih
      · have hbatch : missingBatch (g :: gs) nl = missingBatch gs nl := by
          simp [missingBatch, List.filterMap_cons, hmem]
        rw [hbatch]
        exact ih

theorem find?_self_of_nodup (gs : List RemoteGame) (g : RemoteGame)
    (hg : g ∈ gs) (hnd : (gs.map (fun x => x.slug)).Nodup) :
    gs.find? (fun x => x.slug == g.slug) = some g := by
  induction gs with
  | nil => cases hg
  | cons x gs ih =>
      simp only [List.map_cons, List.nodup_cons] at hnd
      rcases List.mem_cons.mp hg with heq | hmem
      · subst heq
        exact List.find?_cons_of_pos _ (by simp)
      · have hneq : (x.slug == g.slug) = false := by
          cases hb : (x.slug == g.slug)
          · rfl
          · have hx : x.slug = g.slug := by simpa using hb
            exact absurd (hx ▸ List.mem_map_of_mem (fun y => y.slug) hmem) hnd.1
        rw [List.find?_cons_of_neg _ (by simp [hneq])]
        exact ih hmem hnd.2

theorem list_find?_isSome_iff (rows : List LocalGame) (s : String) :
    ((rows.find? (slugPred s)).isSome = true) ↔ s ∈ rows.map (fun r => r.slug) :=
  get_game_by_field_isSome_iff ⟨rows, 0⟩ s

/-! ### Unfolding the remote pass -/

/-- The slug set a pass considers missing. -/
def notInLocalOf (remote : List RemoteGame) (library : List LocalGame) : Finset String :=
  (remote.map (fun g => g.slug)).toFinset \ (library.map (fun gi => gi.slug)).toFinset

theorem sync_from_remote_added (fetch : Except Unit (List RemoteGame))
    (library : List LocalGame) (st : Store) :
    (sync_from_remote fetch library st).added
      = (sync_missing_games st (notInLocalOf (fetched fetch) library) (fetched fetch)).2 := rfl

theorem sync_from_remote_updated (fetch : Except Unit (List RemoteGame))
    (library : List LocalGame) (st : Store) :
    (sync_from_remote fetch library st).updated
      = (sync_game_details
          (sync_missing_games st (notInLocalOf (fetched fetch) library) (fetched fetch)).1
          (fetched fetch)).updated := rfl

theorem sync_from_remote_store (fetch : Except Unit (List RemoteGame))
    (library : List LocalGame) (st : Store) :
    (sync_from_remote fetch library st).store
      = (sync_game_details
          (sync_missing_games st (notInLocalOf (fetched fetch) library) (fetched fetch)).1
          (fetched fetch)).store := rfl

theorem sync_from_remote_library (fetch : Except Unit (List RemoteGame))
    (library : List LocalGame) (st : Store) :
    (sync_from_remote fetch library st).library
      = (if (sync_from_remote fetch library st).added = ∅ then library
         else (sync_from_remote fetch library st).store.rows) := rfl

/-! ### C9: slug uniqueness of the insert batch -/

/-- Remote catalog with two entries sharing one slug (an unpublished
variant next to the published entry). -/
def c9remote : List RemoteGame := [⟨"s", "A", 1, 10, 1⟩, ⟨"s", "B", 2, 20, 2⟩]

/-- C9 counterexample.  With two remote entries sharing the slug s and an
empty local store, the insert batch built by sync_missing_games carries
two records with the same slug, and after the pass the store holds two
rows with slug s: the slug-uniqueness invariant is broken, not
preserved. -/
theorem duplicate_slug_batch_breaks_uniqueness :
    ¬ (((missingBatch c9remote (notInLocalOf c9remote [])).map (fun r => r.slug)).Nodup) ∧
    ¬ ((((sync_from_remote (Except.ok c9remote) [] ⟨[], 0⟩).store.rows).map
        (fun r => r.slug)).Nodup) := by
  constructor <;> decide

/-- Every record of the insert batch has a slug that was missing. -/
theorem missingBatch_slug_mem (gs : List RemoteGame) (nl : Finset String) :
    ∀ r ∈ missingBatch gs nl, r.slug ∈ nl := by
  intro r hr
  rcases List.mem_filterMap.mp hr with ⟨g, _, hg2⟩
  by_cases hmem : g.slug ∈ nl
  · rw [if_pos hmem] at hg2
    cases hg2
    exact hmem
  · rw [if_neg hmem] at hg2
    cases hg2

/-- C9 amended.  The insert batch contains one record per remote entry
whose slug is missing, so it holds at most one record per slug exactly
when the remote catalog itself has pairwise-distinct slugs; under that
condition (and a store that starts slug-unique and matches the snapshot)
the pass also preserves slug uniqueness of the store. -/
theorem missing_batch_slug_unique (fetch : Except Unit (List RemoteGame))
    (library : List LocalGame) (st : Store)
    (hnd : ((fetched fetch).map (fun g => g.slug)).Nodup)
    (hco : library = st.rows)
    (hrows : (st.rows.map (fun r => r.slug)).Nodup) :
    ((missingBatch (fetched fetch) (notInLocalOf (fetched fetch) library)).map
        (fun r => r.slug)).Nodup ∧
    (((sync_from_remote fetch library st).store.rows).map (fun r => r.slug)).Nodup := by
  have hbatch := List.Nodup.sublist
    (missingBatch_map_slug_sublist (notInLocalOf (fetched fetch) library) (fetched fetch)) hnd
  refine ⟨hbatch, ?_⟩
  rw [sync_from_remote_store, sync_game_details_eq_fold, foldl_syncGameStep_map_slug]
  show ((sync_missing_games st (notInLocalOf (fetched fetch) library)
      (fetched fetch)).1.rows.map (fun r => r.slug)).Nodup
  by_cases hnl : notInLocalOf (fetched fetch) library = ∅
  · rw [sync_missing_games, if_pos hnl]
    exact hrows
  · rw [sync_missing_games, if_neg hnl]
    show (((st.add_games_bulk (missingBatch (fetched fetch)
        (notInLocalOf (fetched fetch) library))).1.rows).map (fun r => r.slug)).Nodup
    rw [add_games_bulk_rows, List.map_append, bulkRows_map_slug]
    rw [List.nodup_append]
    refine ⟨hrows, hbatch, ?_⟩
    intro a ha hb
    rcases List.mem_map.mp hb with ⟨r, hr, hrs⟩
    have hmem := missingBatch_slug_mem (fetched fetch) _ r hr
    rw [hrs] at hmem
    have hanl : a ∉ notInLocalOf (fetched fetch) library := by
      rw [notInLocalOf]
      intro hin
      have := (Finset.mem_sdiff.mp hin).2
      rw [hco] at this
      exact this (List.mem_toFinset.mpr ha)
    exact hanl hmem

/-- Witness for C9 amended on a distinct-slug remote catalog. -/
theorem missing_batch_slug_unique_witness :
    ((fetched (Except.ok [(⟨"a", "A", 1, 10, 1⟩ : RemoteGame),
        ⟨"b", "B", 2, 20, 2⟩])).map (fun g => g.slug)).Nodup ∧
    (([] : List LocalGame) = (⟨[], 0⟩ : Store).rows) ∧
    (((⟨[], 0⟩ : Store).rows.map (fun r => r.slug)).Nodup) ∧
    (((missingBatch (fetched (Except.ok [(⟨"a", "A", 1, 10, 1⟩ : RemoteGame),
          ⟨"b", "B", 2, 20, 2⟩]))
        (notInLocalOf (fetched (Except.ok [(⟨"a", "A", 1, 10, 1⟩ : RemoteGame),
          ⟨"b", "B", 2, 20, 2⟩])) [])).map (fun r => r.slug)).Nodup ∧
      (((sync_from_remote (Except.ok [(⟨"a", "A", 1, 10, 1⟩ : RemoteGame),
          ⟨"b", "B", 2, 20, 2⟩]) [] ⟨[], 0⟩).store.rows).map (fun r => r.slug)).Nodup) :=
  ⟨by decide, rfl, by decide,
    missing_batch_slug_unique (Except.ok [⟨"a", "A", 1, 10, 1⟩, ⟨"b", "B", 2, 20, 2⟩])
      [] ⟨[], 0⟩ (by decide) rfl (by decide)⟩

/-! ### C8: disjointness of added and updated -/

/-- Rows at or above the fresh-id watermark n are at most as new as any
listed remote entry their slug finds. -/
def freshInv (st : Store) (n : Nat) (gs : List RemoteGame) : Prop :=
  ∀ g ∈ gs, ∀ lg, st.get_game_by_field g.slug = some lg → n ≤ lg.id →
    g.updated ≤ lg.updated

theorem sync_missing_games_added_ge (st : Store) (nl : Finset String)
    (gs : List RemoteGame) :
    ∀ i ∈ (sync_missing_games st nl gs).2, st.nextId ≤ i := by
  intro i hi
  by_cases hnl : nl = ∅
  · rw [sync_missing_games, if_pos hnl] at hi
    cases hi
  · rw [sync_missing_games, if_neg hnl] at hi
    have hi2 : i ∈ (st.add_games_bulk (missingBatch gs nl)).2 := by
      simpa using List.mem_toFinset.mp hi
    rw [add_games_bulk_ids] at hi2
    exact ((mem_idRange _ _ _).mp hi2).1

theorem freshInv_after_missing (st : Store) (nl : Finset String)
    (gs : List RemoteGame) (hwf : ∀ r ∈ st.rows, r.id < st.nextId)
    (hnd : (gs.map (fun g => g.slug)).Nodup) :
    freshInv (sync_missing_games st nl gs).1 st.nextId gs := by
  intro g hg lg hlg hid
  by_cases hnl : nl = ∅
  · rw [sync_missing_games, if_pos hnl] at hlg
    have hmem : lg ∈ st.rows := List.mem_of_find?_eq_some hlg
    exact absurd (hwf lg hmem) (by omega)
  · rw [sync_missing_games, if_neg hnl] at hlg
    have hlg2 : ((st.add_games_bulk (missingBatch gs nl)).1.rows).find?
        (slugPred g.slug) = some lg := hlg
    rw [add_games_bulk_rows, find?_append] at hlg2
    cases hold : st.rows.find? (slugPred g.slug) with
    | some r =>
        rw [hold] at hlg2
        have : lg = r := by simpa using hlg2.symm
        subst this
        exact absurd (hwf lg (List.mem_of_find?_eq_some hold)) (by omega)
    | none =>
        rw [hold] at hlg2
        have hbulk : (bulkRows st.nextId (missingBatch gs nl)).find?
            (slugPred g.slug) = some lg := by simpa using hlg2
        have hupd := bulkRows_find_updated (missingBatch gs nl) g.slug st.nextId
        rw [hbulk] at hupd
        by_cases hmem : g.slug ∈ nl
        · rw [missingBatch_find_of_mem nl g.slug hmem gs,
            find?_self_of_nodup gs g hg hnd] at hupd
          have : lg.updated = g.updated := by simpa using hupd
          omega
        · rw [missingBatch_find_of_not_mem nl g.slug hmem gs] at hupd
          simp at hupd

theorem foldl_syncGameStep_updated_lt (gs : List RemoteGame) :
    ∀ (acc : DetailsAcc) (n : Nat), freshInv acc.store n gs →
      (gs.map (fun g => g.slug)).Nodup →
      (∀ i ∈ acc.updated, i < n) →
      ∀ i ∈ (gs.foldl syncGameStep acc).updated, i < n := by
  induction gs with
  | nil => intro acc n _ _ hb i hi; exact hb i hi
  | cons g gs ih =>
      intro acc n hfr hnd hb
      simp only [List.map_cons, List.nodup_cons] at hnd
      rw [List.foldl_cons]
      have hstep : ∀ i ∈ (syncGameStep acc g).updated, i < n := by
        intro i hi
        rw [syncGameStep_updated] at hi
        cases hf : acc.store.get_game_by_field g.slug with
        | none => rw [hf] at hi; exact hb i hi
        | some lg =>
            rw [hf] at hi
            by_cases hlt : lg.updated < g.updated
            · have hi2 : i ∈ insert lg.id acc.updated := by
                simpa [hlt] using hi
              rcases Finset.mem_insert.mp hi2 with heq | hmem
              · subst heq
                by_cases hni : n ≤ lg.id
                · exact absurd (hfr g (List.mem_cons_self g gs) lg hf hni) (by omega)
                · omega
              · exact hb i hmem
            · have hi2 : i ∈ acc.updated := by simpa [hlt] using hi
              exact hb i hi2
      have hfr2 : freshInv (syncGameStep acc g).store n gs := by
        intro g2 hg2 lg hlg hid
        have hneq : g2.slug ≠ g.slug := by
          intro heq
          exact hnd.1 (heq ▸ List.mem_map_of_mem (fun x => x.slug) hg2)
        rw [syncGameStep_find_other acc g g2.slug hneq] at hlg
        exact hfr g2 (List.mem_cons_of_mem g hg2) lg hlg hid
      exact ih (syncGameStep acc g) n hfr2 hnd.2 hstep

/-- C8 amended.  Whenever the remote catalog carries pairwise-distinct
slugs (and the store's ids are below its fresh-id counter), the added and
updated id sets of a remote pass are disjoint: inserted rows carry fresh
ids and are never collected as updated in the same pass.  With duplicate
remote slugs the property fails, see the counterexample. -/
theorem added_updated_disjoint (fetch : Except Unit (List RemoteGame))
    (library : List LocalGame) (st : Store)
    (hnd : ((fetched fetch).map (fun g => g.slug)).Nodup)
    (hwf : ∀ r ∈ st.rows, r.id < st.nextId) :
    Disjoint (sync_from_remote fetch library st).added
      (sync_from_remote fetch library st).updated := by
  rw [Finset.disjoint_left]
  intro i hia hiu
  rw [sync_from_remote_added] at hia
  rw [sync_from_remote_updated, sync_game_details_eq_fold] at hiu
  have h1 : st.nextId ≤ i :=
    sync_missing_games_added_ge st (notInLocalOf (fetched fetch) library)
      (fetched fetch) i hia
  have h2 : i < st.nextId :=
    foldl_syncGameStep_updated_lt (fetched fetch)
      ⟨(sync_missing_games st (notInLocalOf (fetched fetch) library) (fetched fetch)).1,
        ∅, []⟩
      st.nextId
      (freshInv_after_missing st (notInLocalOf (fetched fetch) library)
        (fetched fetch) hwf hnd)
      hnd (by intro j hj; cases hj) i hiu
  omega

/-- Remote catalog with a published and an unpublished entry sharing one
slug, the second one newer. -/
def c8remote : List RemoteGame := [⟨"d", "N", 1, 100, 5⟩, ⟨"d", "N", 1, 200, 5⟩]

/-- C8 counterexample.  Starting from an empty local store, the two
duplicate-slug remote entries are both inserted (added ids 0 and 1), and
the second, newer entry then finds the row inserted for the first one and
takes the staleness path, so id 0 is reported updated in the same pass:
added and updated are not disjoint. -/
theorem added_updated_overlap :
    (sync_from_remote (Except.ok c8remote) [] ⟨[], 0⟩).added = {0, 1} ∧
    (sync_from_remote (Except.ok c8remote) [] ⟨[], 0⟩).updated = {0} ∧
    ¬ Disjoint (sync_from_remote (Except.ok c8remote) [] ⟨[], 0⟩).added
        (sync_from_remote (Except.ok c8remote) [] ⟨[], 0⟩).updated := by
  refine ⟨by decide, by decide, ?_⟩
  rw [Finset.disjoint_left]
  intro h
  exact h (show 0 ∈ (sync_from_remote (Except.ok c8remote) [] ⟨[], 0⟩).added by decide)
    (show 0 ∈ (sync_from_remote (Except.ok c8remote) [] ⟨[], 0⟩).updated by decide)

/-- Witness for C8 amended on a distinct-slug remote catalog over a
nonempty store. -/
theorem added_updated_disjoint_witness :
    ((fetched (Except.ok [(⟨"a", "A", 1, 10, 1⟩ : RemoteGame),
        ⟨"b", "B", 2, 20, 2⟩])).map (fun g => g.slug)).Nodup ∧
    (∀ r ∈ (⟨[⟨0, "a", "A", "", 1, 5, 1, false, ""⟩], 1⟩ : Store).rows, r.id < 1) ∧
    Disjoint (sync_from_remote (Except.ok [(⟨"a", "A", 1, 10, 1⟩ : RemoteGame),
        ⟨"b", "B", 2, 20, 2⟩]) [⟨0, "a", "A", "", 1, 5, 1, false, ""⟩]
        ⟨[⟨0, "a", "A", "", 1, 5, 1, false, ""⟩], 1⟩).added
      (sync_from_remote (Except.ok [(⟨"a", "A", 1, 10, 1⟩ : RemoteGame),
        ⟨"b", "B", 2, 20, 2⟩]) [⟨0, "a", "A", "", 1, 5, 1, false, ""⟩]
        ⟨[⟨0, "a", "A", "", 1, 5, 1, false, ""⟩], 1⟩).updated :=
  ⟨by decide, by decide,
    added_updated_disjoint (Except.ok [⟨"a", "A", 1, 10, 1⟩, ⟨"b", "B", 2, 20, 2⟩])
      [⟨0, "a", "A", "", 1, 5, 1, false, ""⟩]
      ⟨[⟨0, "a", "A", "", 1, 5, 1, false, ""⟩], 1⟩ (by decide) (by decide)⟩

/-! ### Preservation lemmas for the local installation pass -/

theorem orElse_none (o : Option α) : (o.orElse fun _ => none) = o := by
  cases o <;> rfl

theorem find?_append_single_none (rows : List LocalGame) (x : LocalGame) (s : String)
    (hx : (x.slug == s) = false) :
    (rows ++ [x]).find? (fun r => r.slug == s) = rows.find? (fun r => r.slug == s) := by
  rw [find?_append]
  have h1 : ([x].find? (fun r => r.slug == s)) = none := by
    rw [List.find?_cons_of_neg _ (by simp [hx])]
    rfl
  rw [h1, orElse_none]

theorem find?_rows_pres (rows : List LocalGame) (a s : String)
    (f : LocalGame → LocalGame) (newRow : LocalGame) (rows2 : List LocalGame)
    (hrows2 : rows2 = (match rows.find? (fun r : LocalGame => r.slug == a) with
       | some _ => updateFirst (fun r : LocalGame => r.slug == a) f rows
       | none => rows ++ [newRow]))
    (hfslug : ∀ x, (f x).slug = x.slug) (hfupd : ∀ x, (f x).updated = x.updated)
    (hnslug : newRow.slug = a)
    (h : (rows.find? (fun r : LocalGame => r.slug == s)).isSome = true) :
    ((rows2.find? (fun r : LocalGame => r.slug == s)).isSome = true) ∧
    (rows2.find? (fun r : LocalGame => r.slug == s)).map (fun r => r.updated)
      = (rows.find? (fun r : LocalGame => r.slug == s)).map (fun r => r.updated) := by
  cases hf : rows.find? (fun r : LocalGame => r.slug == a) with
  | some row =>
      rw [hf] at hrows2
      by_cases hs : s = a
      · subst hs
        have hself := find?_updateFirst_self (fun r : LocalGame => r.slug == s) f
          (fun x hx => by
            have hx2 : x.slug = s := by simpa using hx
            simp [hfslug, hx2]) rows
        rw [hrows2, hself, hf]
        cases hfs : rows.find? (fun r : LocalGame => r.slug == s) with
        | none => rw [hfs] at h; simp at h
        | some r0 => simp [hfupd]
      · have hother := find?_updateFirst_other (fun r : LocalGame => r.slug == a)
          (fun r : LocalGame => r.slug == s) f
          (fun x => by simp [hfslug])
          (fun x hx => by
            have hx2 : x.slug = a := by simpa using hx
            simp [hx2, Ne.symm hs]) rows
        rw [hrows2, hother]
        exact ⟨h, rfl⟩
  | none =>
      rw [hf] at hrows2
      by_cases hs : s = a
      · subst hs
        cases hfs : rows.find? (fun r : LocalGame => r.slug == s) with
        | none => rw [hfs] at h; simp at h
        | some r0 => rw [hfs] at hf; cases hf
      · have hnx : (newRow.slug == s) = false := by
          simp [hnslug, Ne.symm hs]
        rw [hrows2, find?_append_single_none rows newRow s hnx]
        exact ⟨h, rfl⟩

theorem mark_as_installed_rows (st : Store) (rn : String) (gi : LocalGame) :
    (st.mark_as_installed rn gi).1.rows
      = (match st.rows.find? (fun r => r.slug == gi.slug) with
         | some _ => updateFirst (fun r => r.slug == gi.slug)
             (fun r => { r with installed := true, runner := rn }) st.rows
         | none => st.rows ++ [{ gi with id := st.nextId, installed := true, runner := rn }]) := by
  cases hf : st.rows.find? (fun r => r.slug == gi.slug) <;>
    simp [Store.mark_as_installed, hf]

theorem mark_as_uninstalled_rows (st : Store) (gi : LocalGame) :
    (st.mark_as_uninstalled gi).1.rows
      = (match st.rows.find? (fun r => r.slug == gi.slug) with
         | some _ => updateFirst (fun r => r.slug == gi.slug)
             (fun r => { r with installed := false }) st.rows
         | none => st.rows ++ [{ gi with id := st.nextId, installed := false }]) := by
  cases hf : st.rows.find? (fun r => r.slug == gi.slug) <;>
    simp [Store.mark_as_uninstalled, hf]

theorem mark_as_installed_pres (st : Store) (rn : String) (gi : LocalGame) (s : String)
    (h : ((st.get_game_by_field s).isSome = true)) :
    (((st.mark_as_installed rn gi).1.get_game_by_field s).isSome = true) ∧
    ((st.mark_as_installed rn gi).1.get_game_by_field s).map (fun r => r.updated)
      = (st.get_game_by_field s).map (fun r => r.updated) := by
  exact find?_rows_pres st.rows gi.slug s
    (fun r => { r with installed := true, runner := rn })
    { gi with id := st.nextId, installed := true, runner := rn }
    (st.mark_as_installed rn gi).1.rows
    (mark_as_installed_rows st rn gi)
    (fun x => rfl) (fun x => rfl) rfl h

theorem mark_as_uninstalled_pres (st : Store) (gi : LocalGame) (s : String)
    (h : ((st.get_game_by_field s).isSome = true)) :
    (((st.mark_as_uninstalled gi).1.get_game_by_field s).isSome = true) ∧
    ((st.mark_as_uninstalled gi).1.get_game_by_field s).map (fun r => r.updated)
      = (st.get_game_by_field s).map (fun r => r.updated) := by
  exact find?_rows_pres st.rows gi.slug s
    (fun r => { r with installed := false })
    { gi with id := st.nextId, installed := false }
    (st.mark_as_uninstalled gi).1.rows
    (mark_as_uninstalled_rows st gi)
    (fun x => rfl) (fun x => rfl) rfl h

theorem syncSteamStep_store (sR wR : SteamRunner) (sApps wApps : List Nat)
    (acc : LocalAcc) (gi : LocalGame) :
    (syncSteamStep sR wR sApps wApps acc gi).store
      = (if !gi.installed && sApps.contains gi.steamid
         then (acc.store.mark_as_installed "steam" gi).1
         else if !gi.installed && !sApps.contains gi.steamid
              && wApps.contains gi.steamid && gi.configpath != ""
         then (acc.store.mark_as_installed "winesteam" gi).1
         else if gi.installed && !sApps.contains gi.steamid && !wApps.contains gi.steamid
              && ((gi.runner == "steam" && sR.isInstalled)
                  || (gi.runner == "winesteam" && wR.isInstalled))
         then (acc.store.mark_as_uninstalled gi).1
         else acc.store) := by
  by_cases hr1 : gi.runner = "steam" <;> by_cases hr2 : gi.runner = "winesteam" <;>
    by_cases hcp : gi.configpath = "" <;>
    by_cases hS : gi.steamid ∈ sApps <;> by_cases hW : gi.steamid ∈ wApps <;>
    cases hI : gi.installed <;>
    cases hsi : sR.isInstalled <;> cases hwi : wR.isInstalled <;>
    first
    | exact absurd (hr1.symm.trans hr2) (by decide)
    | simp [syncSteamStep, hI, hS, hW, hr1, hr2, hsi, hwi, hcp]

theorem syncSteamStep_pres (sR wR : SteamRunner) (sApps wApps : List Nat)
    (acc : LocalAcc) (gi : LocalGame) (s : String)
    (h : ((acc.store.get_game_by_field s).isSome = true)) :
    (((syncSteamStep sR wR sApps wApps acc gi).store.get_game_by_field s).isSome = true) ∧
    ((syncSteamStep sR wR sApps wApps acc gi).store.get_game_by_field s).map
        (fun r => r.updated)
      = (acc.store.get_game_by_field s).map (fun r => r.updated) := by
  rw [syncSteamStep_store]
  split
  · exact mark_as_installed_pres acc.store "steam" gi s h
  · split
    · exact mark_as_installed_pres acc.store "winesteam" gi s h
    · split
      · exact mark_as_uninstalled_pres acc.store gi s h
      · exact ⟨h, rfl⟩

theorem foldl_steamStep_pres (sR wR : SteamRunner) (sApps wApps : List Nat)
    (lib : List LocalGame) (s : String) :
    ∀ acc : LocalAcc, ((acc.store.get_game_by_field s).isSome = true) →
      (((lib.foldl (syncSteamStep sR wR sApps wApps) acc).store.get_game_by_field
          s).isSome = true) ∧
      ((lib.foldl (syncSteamStep sR wR sApps wApps) acc).store.get_game_by_field s).map
          (fun r => r.updated)
        = (acc.store.get_game_by_field s).map (fun r => r.updated) := by
  induction lib with
  | nil => intro acc h; exact ⟨h, rfl⟩
  | cons gi lib ih =>
      intro acc h
      rw [List.foldl_cons]
      have hstep := syncSteamStep_pres sR wR sApps wApps acc gi s h
      have hrest := ih (syncSteamStep sR wR sApps wApps acc gi) hstep.1
      exact ⟨hrest.1, hrest.2.trans hstep.2⟩

theorem sync_steam_local_eq_fold (sR wR : SteamRunner) (lib : List LocalGame)
    (st : Store) :
    sync_steam_local sR wR lib st
      = lib.foldl (syncSteamStep sR wR (get_installed_steamapps sR)
          (get_installed_steamapps wR)) ⟨st, ∅, ∅⟩ := rfl

/-! ### Presence of remote slugs through a pass -/

theorem presence_after_missing (st : Store) (library : List LocalGame)
    (gs : List RemoteGame) (hco : library = st.rows) :
    ∀ g ∈ gs, (((sync_missing_games st (notInLocalOf gs library) gs).1.get_game_by_field
      g.slug).isSome = true) := by
  intro g hg
  by_cases hnl : notInLocalOf gs library = ∅
  · rw [sync_missing_games, if_pos hnl]
    have hsub := Finset.sdiff_eq_empty_iff_subset.mp hnl
    have hmem : g.slug ∈ (library.map (fun gi => gi.slug)).toFinset :=
      hsub (List.mem_toFinset.mpr (List.mem_map_of_mem (fun x => x.slug) hg))
    rw [get_game_by_field_isSome_iff]
    rw [hco] at hmem
    exact List.mem_toFinset.mp hmem
  · rw [sync_missing_games, if_neg hnl]
    rw [get_game_by_field_isSome_iff]
    show g.slug ∈ ((st.add_games_bulk (missingBatch gs (notInLocalOf gs library))).1.rows).map
      (fun r => r.slug)
    rw [add_games_bulk_rows, List.map_append, bulkRows_map_slug]
    by_cases hmem : g.slug ∈ notInLocalOf gs library
    · refine List.mem_append.mpr (Or.inr ?_)
      refine List.mem_map.mpr ⟨⟨g.name, g.slug, g.year, g.updated, g.steamid⟩, ?_, rfl⟩
      exact List.mem_filterMap.mpr ⟨g, hg, by rw [if_pos hmem]⟩
    · refine List.mem_append.mpr (Or.inl ?_)
      have hrem : g.slug ∈ (gs.map (fun x => x.slug)).toFinset :=
        List.mem_toFinset.mpr (List.mem_map_of_mem (fun x => x.slug) hg)
      have hlib : g.slug ∈ (library.map (fun gi => gi.slug)).toFinset := by
        by_contra hno
        exact hmem (Finset.mem_sdiff.mpr ⟨hrem, hno⟩)
      rw [hco] at hlib
      exact List.mem_toFinset.mp hlib

theorem presence_after_details (gs : List RemoteGame) (acc : DetailsAcc) (s : String)
    (h : ((acc.store.get_game_by_field s).isSome = true)) :
    (((gs.foldl syncGameStep acc).store.get_game_by_field s).isSome = true) := by
  rw [get_game_by_field_isSome_iff] at h ⊢
  rw [foldl_syncGameStep_map_slug]
  exact h

theorem sync_missing_games_added_nonempty (st : Store) (nl : Finset String)
    (gs : List RemoteGame) (hsub : nl ⊆ (gs.map (fun g => g.slug)).toFinset)
    (hne : nl ≠ ∅) : (sync_missing_games st nl gs).2 ≠ ∅ := by
  rw [sync_missing_games, if_neg hne]
  obtain ⟨s0, hs0⟩ := Finset.nonempty_iff_ne_empty.mpr hne
  have hs0r : s0 ∈ (gs.map (fun g => g.slug)).toFinset := hsub hs0
  rcases List.mem_map.mp (List.mem_toFinset.mp hs0r) with ⟨g, hg, hgs⟩
  have hrec : (⟨g.name, g.slug, g.year, g.updated, g.steamid⟩ : InsertRecord)
      ∈ missingBatch gs nl :=
    List.mem_filterMap.mpr ⟨g, hg, by rw [if_pos (hgs ▸ hs0)]⟩
  have hlen : 0 < (missingBatch gs nl).length :=
    List.length_pos.mpr (List.ne_nil_of_mem hrec)
  intro hempty
  have hids : (st.add_games_bulk (missingBatch gs nl)).2 = [] := by
    have := List.toFinset_eq_empty_iff (st.add_games_bulk (missingBatch gs nl)).2
    exact this.mp (by simpa using hempty)
  rw [add_games_bulk_ids] at hids
  have hmem : st.nextId ∈ idRange st.nextId (missingBatch gs nl).length :=
    (mem_idRange _ _ _).mpr ⟨le_refl _, by omega⟩
  rw [hids] at hmem
  cases hmem

/-! ### C7: the second run of a double sync -/

theorem runTwice_added (env : Env) (s : SyncState) :
    (runTwice env s).added
      = (sync_from_remote env.fetch (sync_all env s).2.library
          (sync_all env s).2.store).added := rfl

theorem runTwice_updated (env : Env) (s : SyncState) :
    (runTwice env s).updated
      = (sync_from_remote env.fetch (sync_all env s).2.library
          (sync_all env s).2.store).updated := rfl

theorem sync_all_state_library (env : Env) (s : SyncState) :
    (sync_all env s).2.library
      = (sync_from_remote env.fetch s.library s.store).library := rfl

theorem sync_all_state_store (env : Env) (s : SyncState) :
    (sync_all env s).2.store
      = (sync_steam_local env.steamR env.wineR
          (sync_from_remote env.fetch s.library s.store).library
          (sync_from_remote env.fetch s.library s.store).store).store := rfl

/-- C7 amended.  Running sync_all twice in the same environment, starting
from a snapshot read from the store, with a remote catalog of
pairwise-distinct slugs: the second run reports nothing added and nothing
updated.  (The second run's installed and uninstalled sets can be
non-empty, because the in-memory snapshot is refreshed only when entries
were added, never after install or uninstall transitions; and with
duplicate remote slugs even the updated set of the second run can be
non-empty.  See the counterexample.) -/
theorem second_sync_added_updated_empty (env : Env) (s : SyncState)
    (hco : s.library = s.store.rows)
    (hnd : ((fetched env.fetch).map (fun g => g.slug)).Nodup) :
    (runTwice env s).added = ∅ ∧ (runTwice env s).updated = ∅ := by
  set gs := fetched env.fetch with hgs
  -- the store after the first run's missing pass
  set m1 := sync_missing_games s.store (notInLocalOf gs s.library) gs with hm1
  set r1 := sync_from_remote env.fetch s.library s.store with hr1
  set l1 := sync_steam_local env.steamR env.wineR r1.library r1.store with hl1
  -- presence of every remote slug in the store after the missing pass
  have hpres1 : ∀ g ∈ gs, ((m1.1.get_game_by_field g.slug).isSome = true) :=
    presence_after_missing s.store s.library gs hco
  -- presence in the store after the details pass
  have hpres2 : ∀ g ∈ gs, ((r1.store.get_game_by_field g.slug).isSome = true) := by
    intro g hg
    rw [hr1, sync_from_remote_store, sync_game_details_eq_fold]
    exact presence_after_details gs ⟨m1.1, ∅, []⟩ g.slug (hpres1 g hg)
  -- the details pass leaves every remote entry at most as new as its row
  have hinv1 : updInv r1.store gs := by
    rw [hr1, sync_from_remote_store, sync_game_details_eq_fold]
    exact updInv_after_fold gs ⟨m1.1, ∅, []⟩ hnd
  -- the local pass preserves presence and the updated field
  have hpres3 : ∀ g ∈ gs, ((l1.store.get_game_by_field g.slug).isSome = true) := by
    intro g hg
    rw [hl1, sync_steam_local_eq_fold]
    exact (foldl_steamStep_pres env.steamR env.wineR _ _ r1.library g.slug
      ⟨r1.store, ∅, ∅⟩ (hpres2 g hg)).1
  have hinv2 : updInv l1.store gs := by
    intro g hg lg hlg
    have hp := foldl_steamStep_pres env.steamR env.wineR
      (get_installed_steamapps env.steamR) (get_installed_steamapps env.wineR)
      r1.library g.slug ⟨r1.store, ∅, ∅⟩ (hpres2 g hg)
    cases hf0 : r1.store.get_game_by_field g.slug with
    | none =>
        have hp2 := hp.2
        rw [hf0] at hp2
        rw [hl1, sync_steam_local_eq_fold] at hlg
        rw [hlg] at hp2
        simp at hp2
    | some lg0 =>
        have hupd : lg.updated = lg0.updated := by
          have h2 := hp.2
          rw [hf0] at h2
          rw [hl1, sync_steam_local_eq_fold] at hlg
          rw [hlg] at h2
          simpa using h2
        rw [hupd]
        exact hinv1 g hg lg0 hf0
  -- every remote slug is in the second snapshot
  have hlib2 : ∀ g ∈ gs, g.slug ∈ r1.library.map (fun gi => gi.slug) := by
    intro g hg
    rw [hr1, sync_from_remote_library]
    by_cases hadd : (sync_from_remote env.fetch s.library s.store).added = ∅
    · rw [if_pos hadd]
      have hnl : notInLocalOf gs s.library = ∅ := by
        by_contra hne
        exact (sync_missing_games_added_nonempty s.store _ gs
          (by rw [notInLocalOf]; exact Finset.sdiff_subset) hne)
          (by rw [← sync_from_remote_added]; exact hadd)
      have hsub := Finset.sdiff_eq_empty_iff_subset.mp hnl
      have hmem : g.slug ∈ (s.library.map (fun gi => gi.slug)).toFinset :=
        hsub (List.mem_toFinset.mpr (List.mem_map_of_mem (fun x => x.slug) hg))
      exact List.mem_toFinset.mp hmem
    · rw [if_neg hadd]
      have hmem := hpres2 g hg
      rw [get_game_by_field_isSome_iff] at hmem
      rw [hr1] at hmem
      exact hmem
  have hnl2 : notInLocalOf gs r1.library = ∅ := by
    rw [notInLocalOf, Finset.sdiff_eq_empty_iff_subset]
    intro a ha
    rcases List.mem_map.mp (List.mem_toFinset.mp ha) with ⟨g, hg, hgs2⟩
    exact List.mem_toFinset.mpr (hgs2 ▸ hlib2 g hg)
  -- assemble: second run adds nothing
  have hstate_lib : (sync_all env s).2.library = r1.library := by
    rw [sync_all_state_library, hr1]
  have hstate_store : (sync_all env s).2.store = l1.store := by
    rw [sync_all_state_store, ← hr1, ← hl1]
  constructor
  · rw [runTwice_added, sync_from_remote_added, hstate_lib, hstate_store, ← hgs, hnl2,
      sync_missing_games, if_pos rfl]
  · rw [runTwice_updated, sync_from_remote_updated, hstate_lib, hstate_store, ← hgs, hnl2,
      sync_missing_games, if_pos rfl, sync_game_details_eq_fold]
    exact foldl_syncGameStep_updated_of_updInv gs ⟨l1.store, ∅, []⟩ hinv2 hnd

/-- A store with one uninstalled steam game, used with a host whose steam
integration reports the game installed. -/
def c7store1 : Store := ⟨[⟨0, "g", "G", "", 2000, 10, 42, false, "/cfg"⟩], 1⟩

/-- A store with one installed game under a foreign runner, used with a
duplicate-slug remote catalog. -/
def c7store2 : Store := ⟨[⟨0, "s", "N", "r", 1990, 50, 3, true, ""⟩], 1⟩

/-- The older unpublished remote variant with a year, and the newer
published one without. -/
def c7remA : RemoteGame := ⟨"s", "N", 1993, 100, 5⟩

/-- The newer remote variant whose year field is empty. -/
def c7remB : RemoteGame := ⟨"s", "N", 0, 200, 5⟩

/-- C7 counterexample.  Two successive full syncs with no external change
do not report four empty sets on the second run.  First scenario: the
snapshot is refreshed only when entries were added, so after a first run
that marked a game installed, the second run still sees installed false
in its stale snapshot and re-emits the install transition.  Second
scenario: with two remote entries sharing a slug, the second run first
backfills the empty year from the older variant, which also rewinds the
row's updated field, and the newer variant then retakes the staleness
path, so the second run reports an update. -/
theorem second_sync_not_empty :
    (runTwice ⟨Except.ok [], ⟨true, [42]⟩, ⟨false, []⟩⟩ (mkSync c7store1)).installed
      = {0} ∧
    (runTwice ⟨Except.ok [c7remA, c7remB], ⟨false, []⟩, ⟨false, []⟩⟩
        (mkSync c7store2)).updated = {0} := by
  constructor <;> decide

/-- Witness for C7 amended: a fresh store snapshot, a distinct-slug
remote catalog, and live platform integrations. -/
theorem second_sync_added_updated_empty_witness :
    ((mkSync c7store1).library = (mkSync c7store1).store.rows) ∧
    (((fetched (Except.ok [(⟨"a", "A", 1, 10, 3⟩ : RemoteGame)])).map
        (fun g => g.slug)).Nodup) ∧
    ((runTwice ⟨Except.ok [(⟨"a", "A", 1, 10, 3⟩ : RemoteGame)], ⟨true, [42]⟩,
        ⟨false, []⟩⟩ (mkSync c7store1)).added = ∅ ∧
     (runTwice ⟨Except.ok [(⟨"a", "A", 1, 10, 3⟩ : RemoteGame)], ⟨true, [42]⟩,
        ⟨false, []⟩⟩ (mkSync c7store1)).updated = ∅) :=
  ⟨rfl, by decide,
    second_sync_added_updated_empty
      ⟨Except.ok [⟨"a", "A", 1, 10, 3⟩], ⟨true, [42]⟩, ⟨false, []⟩⟩
      (mkSync c7store1) rfl (by decide)⟩

end LutrisSync
